import Mathlib

set_option maxRecDepth 20000

/-!
Verification of the SRP-6a login server (`src/server.js`).

The file shallowly embeds the arithmetic primitives (`bigIntExponentiation`,
`hash`), the domain parameters (`N`, `g`, `k`) and the per-connection
websocket message handler (`ws.on("message")`) of the server, and proves or
refutes the frozen specification claims about them.

JavaScript `BigInt` values are modelled as `Int` (for the arbitrary-sign
primitive `bigIntExponentiation`) or as `Nat` (for protocol values, which
are all parsed from hexadecimal strings or produced by SHA-256 and are
therefore non-negative).  JavaScript `%` on `BigInt` is truncated remainder
(`Int.tmod`), and `>>` is an arithmetic shift (floor division by a power of
two, `Int.ediv`).
-/

namespace Srp

/-! ## `bigIntExponentiation` (src/server.js lines 54-65)

```js
const bigIntExponentiation = (num, power, modulus) => {
    let result = 1n;
    num = num % modulus;
    while (power > 0n) {
        if (power % 2n === 1n) {
            result = (result * num) % modulus;
        }
        power = power >> 1n;
        num = (num * num) % modulus;
    }
    return result;
};
```
-/

/-- The body of the `while (power > 0n)` loop of `bigIntExponentiation`,
with the mutable variables `result`, `num`, `power` passed explicitly.
JavaScript `%` on `BigInt` is `Int.tmod`; `>> 1n` is an arithmetic shift,
i.e. floor division by 2, which is Lean's `/` on `Int`. -/
def bigIntExpLoop (result num power modulus : Int) : Int :=
  if 0 < power then
    bigIntExpLoop
      (if Int.tmod power 2 = 1 then Int.tmod (result * num) modulus else result)
      (Int.tmod (num * num) modulus)
      (power / 2)
      modulus
  else
    result
termination_by power.toNat
decreasing_by omega

/-- `bigIntExponentiation(num, power, modulus)` from src/server.js:
reduce the base with JavaScript `%`, then run the square-and-multiply loop. -/
def bigIntExponentiation (num power modulus : Int) : Int :=
  bigIntExpLoop 1 (Int.tmod num modulus) power modulus

/-- The same loop instrumented with explicit fuel: `none` means the loop did
not finish within the given number of iterations.  Used to state the
termination claim. -/
def bigIntExpFuel : Nat → Int → Int → Int → Int → Option Int
  | 0, _, _, _, _ => none
  | fuel + 1, result, num, power, modulus =>
    if 0 < power then
      bigIntExpFuel fuel
        (if Int.tmod power 2 = 1 then Int.tmod (result * num) modulus else result)
        (Int.tmod (num * num) modulus)
        (power / 2)
        modulus
    else
      some result

/-- Power congruence modulo `m`: `(a % m) ^ k % m = a ^ k % m`. -/
theorem emod_pow_emod (a : Int) (k : Nat) (m : Int) :
    (a % m) ^ k % m = a ^ k % m := by
  induction k with
  | zero => simp
  | succ k ih =>
    rw [pow_succ, pow_succ, Int.mul_emod, ih, Int.emod_emod_of_dvd _ dvd_rfl,
      ← Int.mul_emod]

/-- Main loop invariant: starting from reduced non-negative `result` and
`num`, the loop computes `result * num ^ power` modulo `modulus`.
The bound `power.toNat ≤ K` drives the induction. -/
theorem bigIntExpLoop_correct (K : Nat) :
    ∀ (power result num modulus : Int), power.toNat ≤ K →
    0 < modulus → 0 ≤ result → result < modulus → 0 ≤ num → num < modulus →
    bigIntExpLoop result num power modulus =
      (result * num ^ power.toNat) % modulus := by
  induction K with
  | zero =>
    intro power result num modulus hK hm hr0 hr1 hn0 hn1
    rw [bigIntExpLoop]
    rw [if_neg (by omega)]
    have h0 : power.toNat = 0 := by omega
    rw [h0, pow_zero, mul_one, Int.emod_eq_of_lt hr0 hr1]
  | succ K ih =>
    intro power result num modulus hK hm hr0 hr1 hn0 hn1
    rw [bigIntExpLoop]
    by_cases hp : 0 < power
    · rw [if_pos hp]
      have hm0 : (0:Int) ≤ modulus := le_of_lt hm
      have htm : Int.tmod power 2 = power % 2 := Int.tmod_eq_emod (by omega) (by omega)
      have hn'eq : Int.tmod (num * num) modulus = num * num % modulus :=
        Int.tmod_eq_emod (mul_nonneg hn0 hn0) hm0
      have hn'0 : 0 ≤ num * num % modulus := Int.emod_nonneg _ (by omega)
      have hn'1 : num * num % modulus < modulus := Int.emod_lt_of_pos _ hm
      have hq : (power / 2).toNat = power.toNat / 2 := by omega
      have hqK : (power / 2).toNat ≤ K := by omega
      have key : ∀ b : Nat, power.toNat % 2 = b →
          (result * num ^ b % modulus) * (num * num % modulus) ^ (power.toNat / 2) %
              modulus = result * num ^ power.toNat % modulus := by
        intro b hb
        rw [Int.mul_emod, Int.emod_emod_of_dvd _ dvd_rfl, emod_pow_emod, ← Int.mul_emod]
        congr 1
        rw [mul_assoc, ← pow_two, ← pow_mul, ← pow_add]
        have hbt : b + 2 * (power.toNat / 2) = power.toNat := by omega
        rw [hbt]
      by_cases hodd : Int.tmod power 2 = 1
      · have hpm : power % 2 = 1 := by rw [← htm]; exact hodd
        rw [if_pos hodd, hn'eq, Int.tmod_eq_emod (mul_nonneg hr0 hn0) hm0,
          ih _ _ _ _ hqK hm (Int.emod_nonneg _ (by omega)) (Int.emod_lt_of_pos _ hm)
            hn'0 hn'1, hq]
        have hb : power.toNat % 2 = 1 := by omega
        have hk := key 1 hb
        rw [pow_one] at hk
        exact hk
      · have hpm : power % 2 ≠ 1 := by rw [← htm]; exact hodd
        rw [if_neg hodd, hn'eq, ih _ _ _ _ hqK hm hr0 hr1 hn'0 hn'1, hq]
        have hb : power.toNat % 2 = 0 := by omega
        have hk := key 0 hb
        rw [pow_zero, mul_one, Int.emod_eq_of_lt hr0 hr1] at hk
        exact hk
    · rw [if_neg hp]
      have h0 : power.toNat = 0 := by omega
      rw [h0, pow_zero, mul_one, Int.emod_eq_of_lt hr0 hr1]

/-- `bigIntExponentiation` computes the mathematical modular power for
non-negative bases. -/
theorem bigIntExponentiation_correct (num power modulus : Int)
    (hnum : 0 ≤ num) (hmod : 1 < modulus) :
    bigIntExponentiation num power modulus = num ^ power.toNat % modulus := by
  rw [bigIntExponentiation, Int.tmod_eq_emod hnum (by omega),
    bigIntExpLoop_correct power.toNat power _ _ _ le_rfl (by omega) (by omega) hmod
      (Int.emod_nonneg _ (by omega)) (Int.emod_lt_of_pos _ (by omega)),
    one_mul, emod_pow_emod]

/-- With modulus 1 the loop always collapses to 0 once at least one
multiplication happens, i.e. for every positive exponent. -/
theorem bigIntExpLoop_mod_one (K : Nat) :
    ∀ (power result num : Int), power.toNat ≤ K → 0 < power →
    bigIntExpLoop result num power 1 = 0 := by
  induction K with
  | zero => intro power r n hK hp; omega
  | succ K ih =>
    intro power r n hK hp
    rw [bigIntExpLoop, if_pos hp]
    by_cases hq : 0 < power / 2
    · exact ih _ _ _ (by omega) hq
    · have h1 : power = 1 := by omega
      subst h1
      rw [show ((1:Int) / 2) = 0 by decide, bigIntExpLoop, if_neg (by omega),
        if_pos (by decide)]
      exact Int.tmod_one _

/-- The fuelled loop agrees with the loop whenever the fuel exceeds the
exponent (so `power.toNat + 1` iterations always suffice: termination). -/
theorem bigIntExpFuel_adequate (K : Nat) :
    ∀ (power result num modulus : Int), power.toNat < K →
    bigIntExpFuel K result num power modulus =
      some (bigIntExpLoop result num power modulus) := by
  induction K with
  | zero => intro power r n m h; omega
  | succ K ih =>
    intro power r n m h
    rw [bigIntExpLoop]
    by_cases hp : 0 < power
    · rw [if_pos hp]
      show (if 0 < power then _ else _) = _
      rw [if_pos hp]
      exact ih _ _ _ _ (by omega)
    · rw [if_neg hp]
      show (if 0 < power then _ else _) = _
      rw [if_neg hp]

/-! ## SHA-256

`hash` in src/server.js calls Node's `crypto.createHash("sha256")`.  The
algorithm is modelled here in full (FIPS 180-4), over `Nat` with explicit
reductions modulo `2 ^ 32`; bytes are `Nat` values below 256. -/

/-- Truncated 32-bit addition. -/
def add32 (a b : Nat) : Nat := (a + b) % 4294967296

/-- Right rotation of a 32-bit word by `r` places (for `x < 2 ^ 32`). -/
def rotr32 (r x : Nat) : Nat := x / 2 ^ r + x % 2 ^ r * 2 ^ (32 - r)

/-- Bitwise complement of a 32-bit word. -/
def not32 (x : Nat) : Nat := 4294967295 - x % 4294967296

/-- SHA-256 choice function. -/
def shaCh (x y z : Nat) : Nat := (x &&& y) ^^^ (not32 x &&& z)

/-- SHA-256 majority function. -/
def shaMaj (x y z : Nat) : Nat := (x &&& y) ^^^ (x &&& z) ^^^ (y &&& z)

/-- SHA-256 Σ₀. -/
def bigSigma0 (x : Nat) : Nat := rotr32 2 x ^^^ rotr32 13 x ^^^ rotr32 22 x

/-- SHA-256 Σ₁. -/
def bigSigma1 (x : Nat) : Nat := rotr32 6 x ^^^ rotr32 11 x ^^^ rotr32 25 x

/-- SHA-256 σ₀. -/
def smallSigma0 (x : Nat) : Nat := rotr32 7 x ^^^ rotr32 18 x ^^^ x / 2 ^ 3

/-- SHA-256 σ₁. -/
def smallSigma1 (x : Nat) : Nat := rotr32 17 x ^^^ rotr32 19 x ^^^ x / 2 ^ 10

/-- The 64 SHA-256 round constants (FIPS 180-4 §4.2.2, written in
decimal). -/
def shaK : List Nat :=
  [1116352408, 1899447441, 3049323471, 3921009573, 961987163,
   1508970993, 2453635748, 2870763221, 3624381080, 310598401,
   607225278, 1426881987, 1925078388, 2162078206, 2614888103,
   3248222580, 3835390401, 4022224774, 264347078, 604807628,
   770255983, 1249150122, 1555081692, 1996064986, 2554220882,
   2821834349, 2952996808, 3210313671, 3336571891, 3584528711,
   113926993, 338241895, 666307205, 773529912, 1294757372,
   1396182291, 1695183700, 1986661051, 2177026350, 2456956037,
   2730485921, 2820302411, 3259730800, 3345764771, 3516065817,
   3600352804, 4094571909, 275423344, 430227734, 506948616,
   659060556, 883997877, 958139571, 1322822218, 1537002063,
   1747873779, 1955562222, 2024104815, 2227730452, 2361852424,
   2428436474, 2756734187, 3204031479, 3329325298]

/-- Working state of the compression function. -/
structure ShaState where
  a : Nat
  b : Nat
  c : Nat
  d : Nat
  e : Nat
  f : Nat
  g : Nat
  h : Nat
deriving DecidableEq

/-- Initial SHA-256 hash value (FIPS 180-4 §5.3.3, written in decimal). -/
def shaH0 : ShaState :=
  ⟨1779033703, 3144134277, 1013904242, 2773480762,
   1359893119, 2600822924, 528734635, 1541459225⟩

/-- One round of the SHA-256 compression function. -/
def shaRound (s : ShaState) (ki wi : Nat) : ShaState :=
  let t1 := add32 (add32 (add32 (add32 s.h (bigSigma1 s.e)) (shaCh s.e s.f s.g)) ki) wi
  let t2 := add32 (bigSigma0 s.a) (shaMaj s.a s.b s.c)
  ⟨add32 t1 t2, s.a, s.b, s.c, add32 s.d t1, s.e, s.f, s.g⟩

/-- Extend the 16 message words to 64, producing the list in reverse;
the head of `rev` is the most recent word. -/
def extendW : Nat → List Nat → List Nat
  | 0, rev => rev
  | n + 1, rev =>
    extendW n
      (add32 (add32 (smallSigma1 (rev.getD 1 0)) (rev.getD 6 0))
         (add32 (smallSigma0 (rev.getD 14 0)) (rev.getD 15 0)) :: rev)

/-- The 64-entry message schedule of a block given as 16 words. -/
def messageSchedule (w16 : List Nat) : List Nat := (extendW 48 w16.reverse).reverse

/-- Process one 512-bit block (given as 16 words) into the running hash. -/
def shaCompress (s : ShaState) (w16 : List Nat) : ShaState :=
  let t := (shaK.zip (messageSchedule w16)).foldl (fun st kw => shaRound st kw.1 kw.2) s
  ⟨add32 s.a t.a, add32 s.b t.b, add32 s.c t.c, add32 s.d t.d,
   add32 s.e t.e, add32 s.f t.f, add32 s.g t.g, add32 s.h t.h⟩

/-- Big-endian 8-byte encoding of the bit length. -/
def lenBytes (n : Nat) : List Nat :=
  [n / 2 ^ 56 % 256, n / 2 ^ 48 % 256, n / 2 ^ 40 % 256, n / 2 ^ 32 % 256,
   n / 2 ^ 24 % 256, n / 2 ^ 16 % 256, n / 2 ^ 8 % 256, n % 256]

/-- SHA-256 padding: append `0x80`, zeros to 56 mod 64, and the 64-bit
big-endian message bit length. -/
def padMessage (msg : List Nat) : List Nat :=
  msg ++ 0x80 :: List.replicate ((119 - msg.length % 64) % 64) 0 ++
    lenBytes (8 * msg.length)

/-- Group bytes into big-endian 32-bit words. -/
def bytesToWords : List Nat → List Nat
  | b0 :: b1 :: b2 :: b3 :: rest =>
    (b0 * 2 ^ 24 + b1 * 2 ^ 16 + b2 * 2 ^ 8 + b3) :: bytesToWords rest
  | _ => []

/-- Split a byte list into 64-byte blocks; `n` is the number of blocks. -/
def toBlocksGo : Nat → List Nat → List (List Nat)
  | 0, _ => []
  | n + 1, bs => bs.take 64 :: toBlocksGo n (bs.drop 64)

/-- Decompose a 32-bit word into 4 big-endian bytes. -/
def wordBytes (w : Nat) : List Nat :=
  [w / 2 ^ 24 % 256, w / 2 ^ 16 % 256, w / 2 ^ 8 % 256, w % 256]

/-- SHA-256 of a byte sequence, as the 32 digest bytes. -/
def sha256 (msg : List Nat) : List Nat :=
  let padded := padMessage msg
  let final := ((toBlocksGo (padded.length / 64) padded).map bytesToWords).foldl
    shaCompress shaH0
  wordBytes final.a ++ wordBytes final.b ++ wordBytes final.c ++ wordBytes final.d ++
    wordBytes final.e ++ wordBytes final.f ++ wordBytes final.g ++ wordBytes final.h

/-! ## Hexadecimal rendering and parsing, UTF-8 -/

/-- The lowercase hexadecimal digit for `d < 16` (as produced by Node's
`digest("hex")` and by JavaScript `toString(16)`). -/
def hexDigitChar (d : Nat) : Char :=
  if d < 10 then Char.ofNat (48 + d) else Char.ofNat (87 + d)

/-- The two lowercase hexadecimal characters of a byte. -/
def byteHexChars (b : Nat) : List Char := [hexDigitChar (b / 16), hexDigitChar (b % 16)]

/-- Lowercase hexadecimal string of a byte sequence (Node `digest("hex")`). -/
def bytesToHexString (bs : List Nat) : String := String.mk ((bs.map byteHexChars).flatten)

/-- Numeric value of a hexadecimal digit character (0 for other characters;
only applied to valid hexadecimal strings). -/
def hexVal (c : Char) : Nat :=
  if 48 ≤ c.toNat ∧ c.toNat ≤ 57 then c.toNat - 48
  else if 97 ≤ c.toNat ∧ c.toNat ≤ 102 then c.toNat - 87
  else if 65 ≤ c.toNat ∧ c.toNat ≤ 70 then c.toNat - 55
  else 0

/-- Whether a character is a hexadecimal digit accepted by `BigInt("0x…")`. -/
def isHexDigit (c : Char) : Bool :=
  (48 ≤ c.toNat && c.toNat ≤ 57) || (97 ≤ c.toNat && c.toNat ≤ 102) ||
    (65 ≤ c.toNat && c.toNat ≤ 70)

/-- Value of a (valid) hexadecimal string. -/
def parseHexNat (s : String) : Nat := s.data.foldl (fun acc c => 16 * acc + hexVal c) 0

/-- JavaScript `BigInt("0x" + s)`: succeeds only on a non-empty string of
hexadecimal digits, otherwise throws a `SyntaxError` (modelled as `none`). -/
def parseHex? (s : String) : Option Nat :=
  if s.data ≠ [] ∧ s.data.all isHexDigit then some (parseHexNat s) else none

/-- UTF-8 encoding of one character. -/
def utf8Bytes (c : Char) : List Nat :=
  let n := c.toNat
  if n < 128 then [n]
  else if n < 2048 then [192 + n / 64, 128 + n % 64]
  else if n < 65536 then [224 + n / 4096, 128 + n / 64 % 64, 128 + n % 64]
  else [240 + n / 262144, 128 + n / 4096 % 64, 128 + n / 64 % 64, 128 + n % 64]

/-- UTF-8 encoding of a string (Node's `hash.update(text)` default). -/
def strBytes (s : String) : List Nat := (s.data.map utf8Bytes).flatten

/-! ## `hash` (src/server.js lines 13-22)

```js
const hash = (...args) => {
    const text = args.join(":");
    return BigInt(`0x${crypto.createHash("sha256").update(text).digest("hex")}`);
};
```
The arguments are JavaScript `BigInt`s or strings. -/

/-- An argument of `hash`: a `BigInt` (non-negative in every call the
server makes) or a string. -/
inductive HashPart where
  | str (s : String)
  | int (n : Nat)
deriving DecidableEq

/-- The string `Array.prototype.join` produces for one argument:
JavaScript `BigInt`s render in decimal, strings render as themselves. -/
def hashPartToString : HashPart → String
  | .str s => s
  | .int n => Nat.repr n

/-- The colon-joined text `args.join(":")`. -/
def hashText (args : List HashPart) : String :=
  String.intercalate ":" (args.map hashPartToString)

/-- `hash(...args)` from src/server.js: SHA-256 of the UTF-8 joined text,
rendered in lowercase hexadecimal by `digest("hex")` and parsed back to an
integer by `BigInt("0x…")`. -/
def hash (args : List HashPart) : Nat :=
  parseHexNat (bytesToHexString (sha256 (strBytes (hashText args))))

/-- Big-endian interpretation of a byte sequence as an unsigned integer. -/
def beBytesToNat (bs : List Nat) : Nat := bs.foldl (fun a b => 256 * a + b) 0

/-- Modelled from the spec (§4.2 `digest`), for comparison with `hash`:
"renders each part as a canonical string (integers as lowercase hexadecimal
without prefix, strings as-is), joins with a fixed separator, applies a
fixed-output-length cryptographic hash, and interprets the raw digest bytes
as a big-endian unsigned integer." -/
def digestSpecHex (args : List HashPart) : Nat :=
  beBytesToNat (sha256 (strBytes (String.intercalate ":"
    (args.map (fun p => match p with
      | .str s => s
      | .int n => (Nat.toDigits 16 n).asString)))))

/-! ## Domain parameters (src/server.js lines 67-83) -/

/-- The hexadecimal digits of the `openssl dhparam` constant, after
`trim().split(":").join("")`. -/
def dhparamHex : String :=
  "00aad9eae2b53d86fb885199eacf14cd65f986251ee9f942e597146c49dc4c38e84c4424dff90fc28ecd66113795dffe53a6c5501f618bfde89c174d846b086d29763979fc91eac2afadb511abde3d7bd67f318cdc292e9a396a6ccf5f6c240c1021928b855b67f0ae62932deb75a6bcf70c718ccd960d5358e37b7671a98b2a93"

/-- The large safe prime `N = BigInt("0x" + dhparamHex)`. -/
def N : Nat := parseHexNat dhparamHex

/-- The generator `g = 2n`. -/
def g : Nat := 2

/-- The multiplier parameter `k = hash(N, g)`. -/
def k : Nat := hash [.int N, .int g]

/-! ## The per-connection handshake session (src/server.js lines 135-232)

One websocket connection holds the closure variables `_I, _A, _B, _b, _s,
_v, _u, _K` and processes inbound messages by `serial` tag.  The handler's
effects — state writes, `ws.send`, `ws.close`, the `db.all` user-store query
— are returned explicitly; a thrown JavaScript exception (reading a property
of `undefined`, or `BigInt` on a non-hex string) is `Except.error`.  The
random value `generateSalt(32)` and the user-store reply of `db.all` are
inputs (`rand`, `dbres`). -/

/-- `bigIntExponentiation` on the protocol's values, which are non-negative
`BigInt`s: the result is non-negative, so it is read back as a `Nat`. -/
def modPowNat (a e m : Nat) : Nat := (bigIntExponentiation a e m).toNat

/-- The parsed `data` payload of an inbound message.  `A` and `C_M` are
`none` when the field is absent or not parseable as `BigInt("0x…")`. -/
structure Payload where
  I : String
  A : Option Nat
  C_M : Option Nat
deriving DecidableEq

/-- An inbound websocket message `{serial, data}`. -/
structure InMsg where
  serial : Int
  data : Option Payload
deriving DecidableEq

/-- A row of the `users` table: salt and verifier as stored hex strings. -/
structure DbRow where
  s : String
  v : String
deriving DecidableEq

/-- Outcome of the `db.all` lookup: a driver error or the matching rows. -/
def DbResult := Except String (List DbRow)

/-- The closure state of one connection (initial values from lines 139-151:
`_I = ""`, numeric fields `0n`, `_s = ""` — a string until phase 2 stores a
parsed `BigInt`, hence `HashPart`). -/
structure Session where
  _I : String
  _A : Nat
  _B : Nat
  _b : Nat
  _s : HashPart
  _v : Nat
  _u : Nat
  _K : Nat
deriving DecidableEq

/-- The session state right after `wsServer.on("connection")` runs. -/
def initialSession : Session := ⟨"", 0, 0, 0, .str "", 0, 0, 0⟩

/-- An outbound `ws.send` message. -/
inductive OutMsg where
  | ack (serial : Int)
  | saltB (serial : Int) (s : String) (B : Nat)
  | err (serial : Int) (error : String)
deriving DecidableEq

/-- A `ws.close` call: bare, or with code 1000 and a `status` body. -/
inductive CloseKind where
  | silent
  | status (code : Nat) (status : Nat)
deriving DecidableEq

/-- HTTP-style status constants from src/server.js lines 104-105. -/
def statusOk : Nat := 200

/-- 401, attached to the close notification on proof mismatch. -/
def statusUnauthorized : Nat := 401

/-- Everything one invocation of the message handler does. -/
structure StepResult where
  state : Session
  sent : List OutMsg
  close : Option CloseKind
  dbQuery : Option String
deriving DecidableEq

/-- The server-side proof `S_M = hash(hash(N) ^ hash(g), hash(_I), _s, _A,
_B, _K)` computed in phase 7 (lines 210-213). -/
def S_M (st : Session) : Nat :=
  hash [.int (Nat.xor (hash [.int N]) (hash [.int g])), .int (hash [.str st._I]),
    st._s, .int st._A, .int st._B, .int st._K]

/-- One invocation of `ws.on("message")` (lines 155-225), with the phase-2
`db.all` callback inlined: `rand` is the value `generateSalt(32)` returned,
`dbres` the reply the user store passes to the callback. -/
def step (st : Session) (msg : InMsg) (rand : Nat) (dbres : DbResult) :
    Except String StepResult :=
  if msg.serial = 2 then
    match msg.data with
    | none => .error "TypeError: cannot destructure property of undefined"
    | some p =>
      match p.A with
      | none => .error "SyntaxError: cannot convert clientPublic to a BigInt"
      | some A =>
        let st2 := { st with _I := p.I, _A := A }
        if A % N = 0 then
          .ok ⟨st2, [], some .silent, none⟩
        else
          match dbres with
          | .error e => .ok ⟨st2, [.err 153 e], some .silent, some p.I⟩
          | .ok rows =>
            match rows.head? with
            | none => .error "TypeError: cannot destructure property of undefined"
            | some row =>
              match parseHex? row.s, parseHex? row.v with
              | some sv, some vv =>
                let b := rand % N
                let B := (k * vv + modPowNat g b N) % N
                .ok ⟨{ st2 with _s := .int sv, _v := vv, _b := b, _B := B },
                  [.saltB 3 row.s B], none, some p.I⟩
              | _, _ => .error "SyntaxError: cannot convert salt or verifier to a BigInt"
  else if msg.serial = 3 then
    .ok ⟨{ st with _u := hash [.int st._A, .int st._B] }, [.ack 4], none, none⟩
  else if msg.serial = 5 then
    let S := modPowNat (st._A * modPowNat st._v st._u N) st._b N
    .ok ⟨{ st with _K := hash [.int S] }, [.ack 6], none, none⟩
  else if msg.serial = 7 then
    match msg.data with
    | none => .error "TypeError: cannot destructure property of undefined"
    | some p =>
      match p.C_M with
      | none => .error "SyntaxError: cannot convert clientProof to a BigInt"
      | some prf =>
        .ok ⟨st, [],
          some (.status 1000 (if S_M st = prf then statusOk else statusUnauthorized)),
          none⟩
  else
    match msg.data with
    | none => .error "TypeError: cannot read properties of undefined"
    | some _ => .ok ⟨st, [], none, none⟩

/-! ## Supporting lemmas -/

set_option maxRecDepth 10000 in
/-- The domain parameter `N` is a number greater than 1 (it is a 1032-bit
prime; only `1 < N` is needed here). -/
theorem one_lt_N : 1 < N := by decide

/-- `modPowNat` computes the mathematical modular power. -/
theorem modPowNat_eq (a e m : Nat) (hm : 1 < m) : modPowNat a e m = a ^ e % m := by
  have h := bigIntExponentiation_correct a e m (Int.natCast_nonneg a) (by exact_mod_cast hm)
  rw [Int.toNat_natCast] at h
  rw [modPowNat, h, ← Int.natCast_pow, ← Int.ofNat_emod, Int.toNat_natCast]

/-- Hexadecimal digit characters parse back to their value. -/
theorem hexVal_hexDigitChar : ∀ d < 16, hexVal (hexDigitChar d) = d := by decide

/-- Folding the parser over the hex rendering of a byte list equals the
big-endian byte fold, for bytes below 256. -/
theorem parse_render_fold : ∀ (bs : List Nat) (acc : Nat), (∀ b ∈ bs, b < 256) →
    List.foldl (fun a c => 16 * a + hexVal c) acc ((bs.map byteHexChars).flatten) =
      List.foldl (fun a b => 256 * a + b) acc bs := by
  intro bs
  induction bs with
  | nil => intro acc _; rfl
  | cons b bs ih =>
    intro acc hlt
    have hb : b < 256 := hlt b (List.mem_cons_self b bs)
    simp only [List.map_cons, List.flatten_cons, byteHexChars, List.cons_append,
      List.nil_append, List.foldl_cons]
    rw [ih _ (fun x hx => hlt x (List.mem_cons_of_mem b hx))]
    rw [hexVal_hexDigitChar (b / 16) (by omega), hexVal_hexDigitChar (b % 16) (by omega)]
    congr 1
    omega

/-- The hex round-trip of the digest equals its big-endian reading. -/
theorem parseHex_bytesToHex (bs : List Nat) (h : ∀ b ∈ bs, b < 256) :
    parseHexNat (bytesToHexString bs) = beBytesToNat bs := by
  rw [parseHexNat, bytesToHexString, beBytesToNat]
  exact parse_render_fold bs 0 h

/-- Every entry of `wordBytes` is a byte. -/
theorem wordBytes_lt (w : Nat) : ∀ b ∈ wordBytes w, b < 256 := by
  intro b hb
  simp only [wordBytes, List.mem_cons, List.not_mem_nil, or_false] at hb
  rcases hb with h | h | h | h <;> subst h <;> exact Nat.mod_lt _ (by norm_num)

/-- Every entry of a SHA-256 digest is a byte. -/
theorem sha256_bytes_lt (msg : List Nat) : ∀ b ∈ sha256 msg, b < 256 := by
  intro b hb
  rw [sha256] at hb
  simp only [List.mem_append] at hb
  rcases hb with ((((((h | h) | h) | h) | h) | h) | h) | h <;>
    exact wordBytes_lt _ b h

/-- Flipping one bit changes a number. -/
theorem xor_two_pow_ne (a i : Nat) : a ^^^ 2 ^ i ≠ a := by
  intro h
  have hbit : (a ^^^ 2 ^ i).testBit i = a.testBit i := by rw [h]
  rw [Nat.testBit_xor, Nat.testBit_two_pow_self, Bool.xor_true] at hbit
  exact Bool.not_ne_self _ hbit

/-! ## Claim theorems -/

/-- C2 (amended: non-negative base): for every non-negative base, every
non-negative exponent, and every modulus greater than 1,
`bigIntExponentiation(base, exponent, modulus)` equals the mathematical
modular power `base ^ exponent mod modulus`. -/
theorem bigIntExponentiation_modPow (num modulus : Int) (e : Nat)
    (h0 : 0 ≤ num) (h2 : 1 < modulus) :
    bigIntExponentiation num e modulus = num ^ e % modulus := by
  rw [bigIntExponentiation_correct num e modulus h0 h2, Int.toNat_natCast]

/-- Witness for C2 at base 3, exponent 4, modulus 5. -/
theorem bigIntExponentiation_modPow_witness :
    bigIntExponentiation 3 4 5 = (3 : Int) ^ (4 : Nat) % 5 :=
  bigIntExponentiation_modPow 3 5 4 (by norm_num) (by norm_num)

/-- C2 counterexample: for the negative base -1 (exponent 1, modulus 3) the
code returns the JavaScript remainder -1, not the mathematical modular
power 2, so the claim fails as stated for "every base". -/
theorem bigIntExponentiation_negBase_cex :
    bigIntExponentiation (-1) 1 3 ≠ (-1 : Int) ^ (1 : Nat) % 3 := by
  rw [bigIntExponentiation, bigIntExpLoop, if_pos (by decide), bigIntExpLoop,
    if_neg (by decide), if_pos (by decide)]
  decide

/-- C8 (amended: the exponent must be positive in the modulus-1 identity):
`bigIntExponentiation(a, e, 1) = 0` for every positive exponent `e`, and
`bigIntExponentiation(a, 0, m) = 1` for every modulus `m > 1`. -/
theorem bigIntExponentiation_edge (a e m : Int) :
    (1 ≤ e → bigIntExponentiation a e 1 = 0) ∧
    (1 < m → bigIntExponentiation a 0 m = 1) := by
  constructor
  · intro he
    rw [bigIntExponentiation]
    exact bigIntExpLoop_mod_one e.toNat e _ _ le_rfl (by omega)
  · intro _hm
    rw [bigIntExponentiation, bigIntExpLoop, if_neg (by norm_num)]

/-- Witness for C8 at `a = 7`, `e = 3`, `m = 5`. -/
theorem bigIntExponentiation_edge_witness :
    bigIntExponentiation 7 3 1 = 0 ∧ bigIntExponentiation 7 0 5 = 1 :=
  ⟨(bigIntExponentiation_edge 7 3 5).1 (by norm_num),
   (bigIntExponentiation_edge 7 0 5).2 (by norm_num)⟩

/-- C8 counterexample: with exponent 0 and modulus 1 the loop never runs,
so `bigIntExponentiation(0, 0, 1)` returns the initial accumulator 1, not
the claimed 0. -/
theorem bigIntExponentiation_mod_one_cex : bigIntExponentiation 0 0 1 ≠ 0 := by
  rw [bigIntExponentiation, bigIntExpLoop, if_neg (by norm_num)]
  decide

/-- C10: for every base, exponent, and nonzero modulus the loop terminates
within `exponent.toNat + 1` iterations (the fuelled loop finishes and
agrees with `bigIntExponentiation`), and a negative exponent skips the loop
entirely so the call returns 1 rather than being rejected. -/
theorem bigIntExponentiation_terminates (num power modulus : Int)
    (_hm : modulus ≠ 0) :
    bigIntExpFuel (power.toNat + 1) 1 (Int.tmod num modulus) power modulus =
      some (bigIntExponentiation num power modulus) ∧
    (power < 0 → bigIntExponentiation num power modulus = 1) := by
  refine ⟨bigIntExpFuel_adequate _ _ _ _ _ (by omega), fun hneg => ?_⟩
  rw [bigIntExponentiation, bigIntExpLoop, if_neg (by omega)]

/-- Witness for C10 at base 9, exponent -4, modulus 7. -/
theorem bigIntExponentiation_terminates_witness :
    bigIntExpFuel ((-4 : Int).toNat + 1) 1 (Int.tmod 9 7) (-4) 7 =
      some (bigIntExponentiation 9 (-4) 7) ∧ bigIntExponentiation 9 (-4) 7 = 1 :=
  ⟨(bigIntExponentiation_terminates 9 (-4) 7 (by norm_num)).1,
   (bigIntExponentiation_terminates 9 (-4) 7 (by norm_num)).2 (by norm_num)⟩

set_option maxRecDepth 10000 in
/-- C7 counterexample: `hash` renders integer arguments in decimal (via
`Array.prototype.join`), not lowercase hexadecimal: on the single part 255
it hashes the text "255" while the specified pipeline hashes "ff", and the
resulting integers differ. -/
theorem hash_hex_cex : hash [.int 255] ≠ digestSpecHex [.int 255] := by decide

/-- C7 (amended: integers render in decimal, not hexadecimal): `hash`
renders integer parts as decimal strings (strings as-is), joins with ":",
applies SHA-256, and returns the digest bytes read as a big-endian unsigned
integer. -/
theorem hash_decimal_bigEndian (args : List HashPart) :
    hash args = beBytesToNat (sha256 (strBytes (String.intercalate ":"
      (args.map hashPartToString)))) := by
  rw [hash, hashText, parseHex_bytesToHex _ (sha256_bytes_lt _)]

/-- C5: a phase-5 message makes the session compute the premaster secret
`S = modPow(clientPublic * modPow(verifier, scramble, N), serverPrivate, N)`
(shown here as the mathematical modular power it equals), store
`sessionKeyHash = digest(S)`, and emit the acknowledgement `{serial: 6}`;
nothing else happens. -/
theorem phase5_sessionKey (st : Session) (d : Option Payload) (rand : Nat)
    (dbres : DbResult) :
    step st ⟨5, d⟩ rand dbres =
      .ok ⟨{ st with _K := hash [.int ((st._A * (st._v ^ st._u % N)) ^ st._b % N)] },
        [.ack 6], none, none⟩ := by
  simp only [step]
  norm_num
  rw [modPowNat_eq _ _ _ one_lt_N, modPowNat_eq _ _ _ one_lt_N]

/-- C1: a phase-7 message carrying a client proof makes the session close
the connection with code 1000 and status 200 (success) exactly when the
proof equals the expected proof `S_M`, 401 (unauthorized) otherwise; and
for every proof obtained from `S_M` by flipping a single bit the close
status is 401. -/
theorem phase7_proofCheck (st : Session) (p : Payload) (prf : Nat) (rand : Nat)
    (dbres : DbResult) (hC : p.C_M = some prf) :
    step st ⟨7, some p⟩ rand dbres =
      .ok ⟨st, [], some (.status 1000
        (if S_M st = prf then statusOk else statusUnauthorized)), none⟩ ∧
    (∀ i : Nat, prf = Nat.xor (S_M st) (2 ^ i) →
      step st ⟨7, some p⟩ rand dbres =
        .ok ⟨st, [], some (.status 1000 statusUnauthorized), none⟩) := by
  have h1 : step st ⟨7, some p⟩ rand dbres =
      .ok ⟨st, [], some (.status 1000
        (if S_M st = prf then statusOk else statusUnauthorized)), none⟩ := by
    simp only [step, hC]
    norm_num
  refine ⟨h1, fun i hflip => ?_⟩
  rw [h1]
  have hne : ¬ (S_M st = prf) := by
    subst hflip
    exact fun hh => xor_two_pow_ne (S_M st) i hh.symm
  rw [if_neg hne]

/-- Witness for C1: a proof that differs from the expected proof in the
lowest bit yields the unauthorized close status. -/
theorem phase7_proofCheck_witness :
    step initialSession ⟨7, some ⟨"", none, some (Nat.xor (S_M initialSession) (2 ^ 0))⟩⟩
        0 (.ok []) =
      .ok ⟨initialSession, [], some (.status 1000 statusUnauthorized), none⟩ :=
  (phase7_proofCheck initialSession ⟨"", none, some (Nat.xor (S_M initialSession) (2 ^ 0))⟩
    (Nat.xor (S_M initialSession) (2 ^ 0)) 0 (.ok []) rfl).2 0 rfl

/-- C3: a phase-2 message whose client public ephemeral is ≡ 0 mod N makes
the session close the connection silently at once: nothing is sent, the
user store is not queried, and no field beyond the already-assigned `_I`
and `_A` is touched. -/
theorem phase2_zeroKey (st : Session) (p : Payload) (A : Nat) (rand : Nat)
    (dbres : DbResult) (hA : p.A = some A) (hz : A % N = 0) :
    step st ⟨2, some p⟩ rand dbres =
      .ok ⟨{ st with _I := p.I, _A := A }, [], some .silent, none⟩ := by
  simp only [step, hA]
  norm_num [hz]

/-- Witness for C3 at `clientPublic = 0`. -/
theorem phase2_zeroKey_witness :
    step initialSession ⟨2, some ⟨"x", some 0, none⟩⟩ 0 (.ok []) =
      .ok ⟨{ initialSession with _I := "x", _A := 0 }, [], some .silent, none⟩ :=
  phase2_zeroKey initialSession ⟨"x", some 0, none⟩ 0 0 (.ok []) rfl (Nat.zero_mod N)

/-- C4 (code bug): a phase-2 message with an unknown identity — the store
returns zero rows and no error — does not produce the claimed error
notification and closure; the handler throws (`rows[0]` is `undefined`). -/
theorem phase2_unknownIdentity_throws :
    step initialSession ⟨2, some ⟨"nobody", some 1, none⟩⟩ 0 (.ok []) =
      .error "TypeError: cannot destructure property of undefined" := rfl

/-- C9 (amended: only when the message carries a `data` payload): a message
whose phase tag is none of 2, 3, 5, 7 only logs: the state is unchanged,
nothing is sent, the connection stays open, no store query is made, and the
handler does not throw. -/
theorem unexpectedPhase_noop (st : Session) (s : Int) (p : Payload) (rand : Nat)
    (dbres : DbResult) (h2 : s ≠ 2) (h3 : s ≠ 3) (h5 : s ≠ 5) (h7 : s ≠ 7) :
    step st ⟨s, some p⟩ rand dbres = .ok ⟨st, [], none, none⟩ := by
  simp only [step]
  rw [if_neg h2, if_neg h3, if_neg h5, if_neg h7]

/-- Witness for C9 at phase tag 9. -/
theorem unexpectedPhase_noop_witness :
    step initialSession ⟨9, some ⟨"", none, none⟩⟩ 0 (.ok []) =
      .ok ⟨initialSession, [], none, none⟩ :=
  unexpectedPhase_noop initialSession 9 ⟨"", none, none⟩ 0 (.ok [])
    (by decide) (by decide) (by decide) (by decide)

/-- C9 counterexample: a phase-9 message with no `data` payload makes the
default branch read `data.error` on `undefined`, so the handler throws
instead of merely logging. -/
theorem unexpectedPhase_noPayload_cex :
    step initialSession ⟨9, none⟩ 0 (.ok []) =
      .error "TypeError: cannot read properties of undefined" := rfl

/-- Phase 2 never touches `_u` or `_K`, whatever the store and parser do. -/
theorem step_phase2_frame (st : Session) (data : Option Payload) (rand : Nat)
    (dbres : DbResult) (res : StepResult)
    (h : step st ⟨2, data⟩ rand dbres = .ok res) :
    res.state._u = st._u ∧ res.state._K = st._K := by
  simp only [step] at h
  norm_num at h
  repeat' split at h
  all_goals
    first
      | exact Except.noConfusion h
      | (injection h with h'; subst h'; exact ⟨rfl, rfl⟩)
      | (subst h; exact ⟨rfl, rfl⟩)

/-- C6 (amended: each phase handler writes only the fields its phase owns,
but a replayed phase re-runs its writes): on every successfully handled
message, phase 2 leaves `_u` and `_K` unchanged, phase 3 changes at most
`_u`, phase 5 changes at most `_K`, phase 7 changes nothing, and an
unrecognized phase changes nothing. -/
theorem step_frame (st : Session) (msg : InMsg) (rand : Nat) (dbres : DbResult)
    (res : StepResult) (h : step st msg rand dbres = .ok res) :
    (msg.serial = 2 → res.state._u = st._u ∧ res.state._K = st._K) ∧
    (msg.serial = 3 → res.state = { st with _u := res.state._u }) ∧
    (msg.serial = 5 → res.state = { st with _K := res.state._K }) ∧
    (msg.serial = 7 → res.state = st) ∧
    (msg.serial ≠ 2 → msg.serial ≠ 3 → msg.serial ≠ 5 → msg.serial ≠ 7 →
      res.state = st) := by
  obtain ⟨serial, data⟩ := msg
  refine ⟨fun h2 => ?_, fun h3 => ?_, fun h5 => ?_, fun h7 => ?_,
    fun h2 h3 h5 h7 => ?_⟩
  · have hs : serial = 2 := h2
    subst hs
    exact step_phase2_frame st data rand dbres res h
  · have hs : serial = 3 := h3
    subst hs
    simp only [step] at h
    norm_num at h
    first
      | (injection h with h'; subst h'; rfl)
      | (subst h; rfl)
  · have hs : serial = 5 := h5
    subst hs
    simp only [step] at h
    norm_num at h
    first
      | (injection h with h'; subst h'; rfl)
      | (subst h; rfl)
  · have hs : serial = 7 := h7
    subst hs
    simp only [step] at h
    norm_num at h
    repeat' split at h
    all_goals
      first
        | exact Except.noConfusion h
        | (injection h with h'; subst h'; rfl)
        | (subst h; rfl)
  · have hs2 : serial ≠ 2 := h2
    have hs3 : serial ≠ 3 := h3
    have hs5 : serial ≠ 5 := h5
    have hs7 : serial ≠ 7 := h7
    simp only [step] at h
    rw [if_neg hs2, if_neg hs3, if_neg hs5, if_neg hs7] at h
    repeat' split at h
    all_goals
      first
        | exact Except.noConfusion h
        | (injection h with h'; subst h'; rfl)
        | (subst h; rfl)

/-- Witness for C6 at an unrecognized phase tag. -/
theorem step_frame_witness :
    initialSession = initialSession ∧ ([] : List OutMsg) = [] :=
  ⟨((step_frame initialSession ⟨9, some ⟨"", none, none⟩⟩ 0 (.ok [])
      ⟨initialSession, [], none, none⟩ rfl).2.2.2.2
    (by decide) (by decide) (by decide) (by decide) : _), rfl⟩

/-- C6 counterexample: replaying phase 2 overwrites the already-written
`_A` field — after a first phase-2 message with `clientPublic = 1` the
session holds `_A = 1`, and a replayed phase-2 message with
`clientPublic = 2` silently re-initializes it to 2, so derived fields are
not written at most once. -/
theorem replay_overwrite_cex :
    ((step initialSession ⟨2, some ⟨"alice", some 1, none⟩⟩ 0
        (.ok [⟨"00", "00"⟩])).map (fun r => r.state._A)) = .ok 1 ∧
    (((step initialSession ⟨2, some ⟨"alice", some 1, none⟩⟩ 0
        (.ok [⟨"00", "00"⟩])).bind (fun r1 =>
      step r1.state ⟨2, some ⟨"alice", some 2, none⟩⟩ 0
        (.ok [⟨"00", "00"⟩]))).map (fun r => r.state._A)) = .ok 2 :=
  ⟨rfl, rfl⟩

end Srp
